import Mathlib

/-!
Shallow embedding of the rehabilitation analysis pipeline of this repository
(enhanced_analyzer.py and the data-collection loop of enhanced_sensor_handler.py),
with theorems checking the natural-language specification against it.

Conventions of the embedding:
* SQL / pandas numeric values are rationals; a SQL NULL (pandas NaN) in a
  channel is `Option.none`.
* A pandas DataFrame is its row list plus a flag recording whether the frame
  carries the session_id column (the single-session query of load_session_data
  does not select it; the historical query of load_user_historical_data does).
* Python float NaN and infinity arising from arithmetic are modeled as `none`
  in an Option-valued NaN-propagating arithmetic; a division whose denominator
  is zero therefore yields `none`.
* An uncaught Python exception is `Except.error` with the exception name; a
  function that can fall through without a return yields `Option.none`.
-/

deriving instance DecidableEq for Except

namespace Rehab

/-- One row of the sensor_data table as selected by the analyzer queries:
timestamp (seconds), test_type, the two optional channels, and the session id
(meaningful only when the surrounding frame carries that column). -/
structure Row where
  timestamp : ℚ
  test_type : String
  force_value : Option ℚ
  angle_value : Option ℚ
  session_id : String
  deriving Repr, DecidableEq, Inhabited

/-- A pandas dataframe as the analyzer sees it: the rows, and whether the
frame has a session_id column. -/
structure DataFrame where
  rows : List Row
  hasSessionId : Bool
  deriving Repr, DecidableEq, Inhabited

/-- Helper of uniqList: the elements of the list not yet seen, in order. -/
def uniqAux (seen : List String) : List String → List String
  | [] => []
  | x :: xs => if x ∈ seen then uniqAux seen xs else x :: uniqAux (x :: seen) xs

/-- First-occurrence-order deduplication, the order pandas Series.unique uses. -/
def uniqList (l : List String) : List String := uniqAux [] l

/-- fillna(0) on one row: both channels become non-null, absent values become 0. -/
def fillna0 (r : Row) : Row :=
  { r with force_value := some (r.force_value.getD 0),
           angle_value := some (r.angle_value.getD 0) }

/-- load_session_data: the single-session SELECT returns
timestamp, test_type, force_value, angle_value (no session_id column),
and the non-empty case is passed through fillna(0). -/
def load_session_data (dbRows : List Row) : DataFrame :=
  if dbRows = [] then { rows := [], hasSessionId := false }
  else { rows := dbRows.map fillna0, hasSessionId := false }

/-- load_user_historical_data: the historical SELECT includes the session_id
column, and the non-empty case is passed through fillna(0). -/
def load_user_historical_data (dbRows : List Row) : DataFrame :=
  if dbRows = [] then { rows := [], hasSessionId := true }
  else { rows := dbRows.map fillna0, hasSessionId := true }

/-- Maximum of a list of rationals (pandas Series.max over non-null values);
0 on the empty list, which callers guard against. -/
def qmax : List ℚ → ℚ
  | [] => 0
  | x :: xs => xs.foldl max x

/-- Minimum of a list of rationals; 0 on the empty list. -/
def qmin : List ℚ → ℚ
  | [] => 0
  | x :: xs => xs.foldl min x

/-- Arithmetic mean; callers guard the empty case. -/
def qmean (l : List ℚ) : ℚ := l.sum / l.length

/-- pandas Series.median: middle of the sorted values, or the average of the
two middle values for an even count. -/
def qmedian (l : List ℚ) : ℚ :=
  let s := List.insertionSort (fun a b : ℚ => a ≤ b) l
  let n := l.length
  if n = 0 then 0
  else if n % 2 = 1 then s.getD (n / 2) 0
  else (s.getD (n / 2 - 1) 0 + s.getD (n / 2) 0) / 2

/-- The non-null force values of a row list (pandas dropna / skipna). -/
def forceVals (rows : List Row) : List ℚ := rows.filterMap (fun r => r.force_value)

/-- The non-null angle values of a row list. -/
def angleVals (rows : List Row) : List ℚ := rows.filterMap (fun r => r.angle_value)

/-- pandas skipna max of a column: NaN (none) when every entry is null. -/
def omax (l : List ℚ) : Option ℚ := if l = [] then none else some (qmax l)

/-- pandas skipna min of a column. -/
def omin (l : List ℚ) : Option ℚ := if l = [] then none else some (qmin l)

/-- pandas skipna mean of a column. -/
def omean (l : List ℚ) : Option ℚ := if l = [] then none else some (qmean l)

/-- NaN-propagating addition on Python floats. -/
def oadd : Option ℚ → Option ℚ → Option ℚ
  | some a, some b => some (a + b)
  | _, _ => none

/-- NaN-propagating subtraction on Python floats. -/
def osub : Option ℚ → Option ℚ → Option ℚ
  | some a, some b => some (a - b)
  | _, _ => none

/-- NaN-propagating multiplication on Python floats. -/
def omul : Option ℚ → Option ℚ → Option ℚ
  | some a, some b => some (a * b)
  | _, _ => none

/-- NaN-propagating division on Python floats; a zero denominator never
produces a finite value (numpy gives NaN or infinity), modeled as none. -/
def odiv : Option ℚ → Option ℚ → Option ℚ
  | some a, some b => if b = 0 then none else some (a / b)
  | _, _ => none

/-! ## Score generator (generate_performance_score / get_performance_grade) -/

/-- The angle-test branch: max(df.angle.max() - df.angle) / 90 * 100, which is
(max - min) / 90 * 100 over the non-null angle values. -/
def angleTestScore (rows : List Row) : Option ℚ :=
  omul (odiv (osub (omax (angleVals rows)) (omin (angleVals rows))) (some 90)) (some 100)

/-- The force-test branch: (300 - df.force.max()) / 300. -/
def forceTestScore (rows : List Row) : Option ℚ :=
  odiv (osub (some 300) (omax (forceVals rows))) (some 300)

/-- The force-and-angle branch of generate_performance_score. The source
filters to rows with force greater than 10, takes the angle of the first such
row (indexing the unsorted filter result) as baseline, and computes
(max angle - baseline) / (max angle - min angle) * 100 with no guard on an
equal max and min; an empty filter makes the iloc[0] indexing raise
IndexError. -/
def forceAngleScore (rows : List Row) : Except String (Option ℚ) :=
  let ydf := rows.filter (fun r =>
    match r.force_value with
    | some v => decide (10 < v)
    | none => false)
  match ydf.head? with
  | none => .error "IndexError"
  | some r0 =>
    let baseline := r0.angle_value
    let angle_score :=
      omul (odiv (osub (omax (angleVals rows)) baseline)
                 (osub (omax (angleVals rows)) (omin (angleVals rows)))) (some 100)
    let force_score := forceTestScore rows
    .ok (odiv (oadd angle_score force_score) (some 2))

/-- One iteration body of the scoring loop: some branch result for the three
recognized test types, none when no branch assigns the score variable. -/
def scoreBranch (rows : List Row) (t : String) : Option (Except String (Option ℚ)) :=
  if t = "angle test" then some (.ok (angleTestScore rows))
  else if t = "force test" then some (.ok (forceTestScore rows))
  else if t = "force and angle test" then some (forceAngleScore rows)
  else none

/-- The scoring loop over the unique test types. The score variable is a plain
Python local: an unrecognized type reuses the previous value of the variable,
and raises NameError when no branch has assigned it yet. -/
def scoreLoop (rows : List Row) :
    List String → Option (Option ℚ) → List (String × Option ℚ) →
    Except String (List (String × Option ℚ))
  | [], _, acc => .ok acc.reverse
  | t :: ts, prev, acc =>
    match scoreBranch rows t with
    | some (.error e) => .error e
    | some (.ok s) => scoreLoop rows ts (some s) ((t, s) :: acc)
    | none =>
      match prev with
      | none => .error "NameError"
      | some s => scoreLoop rows ts (some s) ((t, s) :: acc)

/-- get_performance_grade: mean of the per-type scores, compared against the
letter thresholds. A NaN mean fails every comparison and grades D; an empty
score dict divides by zero. -/
def get_performance_grade (d : List (String × Option ℚ)) : Except String Char :=
  if d.length = 0 then .error "ZeroDivisionError"
  else
    let avg := odiv (d.foldl (fun acc p => oadd acc p.2) (some 0)) (some (d.length : ℚ))
    .ok (match avg with
      | some v => if 90 ≤ v then 'A' else if 80 ≤ v then 'B' else if 70 ≤ v then 'C' else 'D'
      | none => 'D')

/-- generate_performance_score: per-type scores over the unique test types of
the frame, plus the aggregate grade. -/
def generate_performance_score (rows : List Row) :
    Except String (List (String × Option ℚ) × Char) := do
  let scores ← scoreLoop rows (uniqList (rows.map (fun r => r.test_type))) none []
  let grade ← get_performance_grade scores
  .ok (scores, grade)

/-! ## Statistical summarizer (basic_statistical_analysis) -/

/-- The per-channel statistics block: mean/min/max/median over the non-null
values and their count. The source also stores std (the square root of the
sample variance), an irrational quantity untouched by the claims and hence
omitted from the rational embedding. -/
structure ChannelStats where
  mean : ℚ
  min : ℚ
  max : ℚ
  median : ℚ
  count : ℕ
  deriving Repr, DecidableEq, Inhabited

/-- Per-test-type statistics: a channel block is present exactly when the
channel has at least one non-null value in that group. -/
structure TypeStats where
  force : Option ChannelStats
  angle : Option ChannelStats
  deriving Repr, DecidableEq, Inhabited

/-- The statistics block computed over a non-empty value list. -/
def channelStats (vals : List ℚ) : ChannelStats :=
  { mean := qmean vals, min := qmin vals, max := qmax vals,
    median := qmedian vals, count := vals.length }

/-- The per-type body of basic_statistical_analysis: a channel block is
emitted exactly when the channel has a non-null value in the type group. -/
def typeStatsFor (rows : List Row) (t : String) : TypeStats :=
  let td := rows.filter (fun r => r.test_type == t)
  { force := if forceVals td = [] then none else some (channelStats (forceVals td)),
    angle := if angleVals td = [] then none else some (channelStats (angleVals td)) }

/-- basic_statistical_analysis: an error marker on an empty frame, otherwise a
per-type association list of channel blocks over the non-null values. -/
def basic_statistical_analysis (df : DataFrame) :
    Except String (List (String × TypeStats)) :=
  if df.rows = [] then .error "No data found"
  else .ok ((uniqList (df.rows.map (fun r => r.test_type))).map
    (fun t => (t, typeStatsFor df.rows t)))

/-! ## Trend analyzer (trend_analysis) -/

/-- One entry of a session_trends list. The channel aggregates carry the pandas
skipna semantics (none both for a field the branch does not emit and for the
all-null NaN case, which the fillna pipeline never produces). -/
structure SessionTrend where
  session_id : String
  timestamp : ℚ
  duration_minutes : ℚ
  avg_force : Option ℚ
  max_force : Option ℚ
  avg_angle : Option ℚ
  max_angle : Option ℚ
  deriving Repr, DecidableEq, Inhabited

/-- One improvement block of the overall trends. -/
structure Improvement where
  change : ℚ
  percentage : ℚ
  deriving Repr, DecidableEq, Inhabited

/-- The overall_trends dict: per-channel improvement blocks. -/
structure OverallTrends where
  force_improvement : Option Improvement
  angle_improvement : Option Improvement
  deriving Repr, DecidableEq, Inhabited

/-- The per-test-type analysis dict of trend_analysis: session_trends is
absent for an unrecognized type (whose branch leaves the dict empty), and
overall_trends is absent at or below the 10-row threshold. -/
structure TypeTrend where
  session_trends : Option (List SessionTrend)
  overall_trends : Option OverallTrends
  deriving Repr, DecidableEq, Inhabited

/-- Timestamp sort (sort_values) of a row list. -/
def sortRows (rows : List Row) : List Row :=
  List.insertionSort (fun a b => a.timestamp ≤ b.timestamp) rows

/-- The session_trends entry for one session id within the type-filtered rows:
first timestamp, duration in minutes, and the channel aggregates the branch
emits (useF for force, useA for angle). -/
def mkSessionTrend (ydf : List Row) (useF useA : Bool) (sid : String) : SessionTrend :=
  let sd := ydf.filter (fun r => r.session_id == sid)
  let ts := sd.map (fun r => r.timestamp)
  { session_id := sid
    timestamp := qmin ts
    duration_minutes := (qmax ts - qmin ts) / 60
    avg_force := if useF then omean (forceVals sd) else none
    max_force := if useF then omax (forceVals sd) else none
    avg_angle := if useA then omean (angleVals sd) else none
    max_angle := if useA then omax (angleVals sd) else none }

/-- The first-half versus second-half improvement block: change of the means,
and the percentage guarded to 0 when the first-half mean is zero. -/
def mkImprovement (firstVals secondVals : List ℚ) : Improvement :=
  let change := qmean secondVals - qmean firstVals
  { change := change
    percentage := if qmean firstVals ≠ 0 then change / qmean firstVals * 100 else 0 }

/-- The overall_trends block of one type branch: present only when the sorted
type rows number more than 10, split at the integer midpoint. -/
def overallFor (ydf : List Row) (useF useA : Bool) : Option OverallTrends :=
  let sorted := sortRows ydf
  if 10 < sorted.length then
    let mid := sorted.length / 2
    let fh := sorted.take mid
    let sh := sorted.drop mid
    some { force_improvement :=
             if useF then some (mkImprovement (forceVals fh) (forceVals sh)) else none
           angle_improvement :=
             if useA then some (mkImprovement (angleVals fh) (angleVals sh)) else none }
  else none

/-- One type branch of trend_analysis: the three recognized type names build
session_trends and possibly overall_trends; any other type leaves the
per-type dict empty. -/
def trendForType (rows : List Row) (t : String) : TypeTrend :=
  if t = "force test" then
    let ydf := rows.filter (fun r => r.test_type == "force test")
    { session_trends :=
        some ((uniqList (ydf.map (fun r => r.session_id))).map (mkSessionTrend ydf true false))
      overall_trends := overallFor ydf true false }
  else if t = "angle test" then
    let ydf := rows.filter (fun r => r.test_type == "angle test")
    { session_trends :=
        some ((uniqList (ydf.map (fun r => r.session_id))).map (mkSessionTrend ydf false true))
      overall_trends := overallFor ydf false true }
  else if t = "force and angle test" then
    let ydf := rows.filter (fun r => r.test_type == "force and angle test")
    { session_trends :=
        some ((uniqList (ydf.map (fun r => r.session_id))).map (mkSessionTrend ydf true true))
      overall_trends := overallFor ydf true true }
  else { session_trends := none, overall_trends := none }

/-- trend_analysis: an error dict on an empty frame; the per-type trends when
the frame carries the session_id column; and, the guard having no else branch,
the Python None fall-through when it does not. -/
def trend_analysis (df : DataFrame) : Option (Except String (List (String × TypeTrend))) :=
  if df.rows = [] then some (.error "数据为空")
  else if df.hasSessionId then
    some (.ok ((uniqList (df.rows.map (fun r => r.test_type))).map
      (fun t => (t, trendForType df.rows t))))
  else none

/-! ## Performance clusterer (performance_clustering)

The numeric content of StandardScaler, KMeans and the silhouette metric lives
in sklearn; the embedding keeps the control flow of the source exactly and
abstracts the silhouette computation into an oracle, called with the data and
features actually being clustered. An oracle answer of none models a fit whose
labels form a single cluster (the source skips scoring it); cluster centers
and labels, sklearn state untouched by the claims, are not recorded. -/

/-- A clustering feature column. -/
inductive Feature where
  | force
  | angle
  deriving Repr, DecidableEq

/-- The feature-selection branches of performance_clustering, with the
misspelled type literals of the source: the second and third branches test
for an underscore variant that no other part of the repository produces. -/
def featuresFor (t : String) : Option (List Feature) :=
  if t = "force test" then some [Feature.force]
  else if t = "angle_test" then some [Feature.angle]
  else if t = "force and angle_test" then some [Feature.force, Feature.angle]
  else none

/-- The reported clustering record for one type. -/
structure TypeClusters where
  n_clusters : ℕ
  silhoutte_score : ℚ
  deriving Repr, DecidableEq, Inhabited

/-- The normal outcomes of performance_clustering: the insufficient-data set
literal, or the per-type results dict. -/
inductive ClusterOutcome where
  | insufficient : ClusterOutcome
  | results : List (String × TypeClusters) → ClusterOutcome
  deriving Repr, DecidableEq

/-- A silhouette oracle: the score sklearn reports for the given data,
features and cluster count, or none when the fit produced a single cluster. -/
def SilOracle : Type := List Row → List Feature → ℕ → Option ℚ

/-- The k-selection loop: k ranges over [2, min 5 (n - 1)], a candidate is
scored only when k is at most n and the fit is multi-cluster, and a candidate
wins only with a score strictly above the best so far (initially k = 2 with
score 0). -/
def selectK (sil : ℕ → Option ℚ) (n : ℕ) : ℕ × ℚ :=
  (List.range' 2 (min 5 (n - 1) + 1 - 2)).foldl
    (fun best k =>
      if k ≤ n then
        match sil k with
        | some s => if best.2 < s then (k, s) else best
        | none => best
      else best)
    (2, 0)

/-- The ydf/features local after one branch dispatch: a recognized type
rebinds it, an unrecognized type leaves the previous binding (none when
nothing has bound it yet). -/
def nextState (rows : List Row) (t : String)
    (st : Option (List Row × List Feature)) : Option (List Row × List Feature) :=
  match featuresFor t with
  | some fs => some (rows.filter (fun r => r.test_type == t), fs)
  | none => st

/-- The per-type loop of performance_clustering. The ydf/features pair is a
plain Python local carried across iterations: an unrecognized type keeps the
stale pair of the previous iteration and raises UnboundLocalError when no
iteration has assigned it yet. The insufficiency test reads the length of the
WHOLE frame, not of the type rows, and returns for the whole function; the
final KMeans fit raises ValueError when the winning k exceeds the sample
count. -/
def clusterGo (sil : SilOracle) (rows : List Row) :
    List String → Option (List Row × List Feature) → List (String × TypeClusters) →
    Except String ClusterOutcome
  | [], _, acc => .ok (.results acc.reverse)
  | t :: ts, st, acc =>
    if rows.length ≤ 15 then .ok .insufficient
    else match nextState rows t st with
      | none => .error "UnboundLocalError"
      | some (ydf, fs) =>
        if ydf.length < (selectK (sil ydf fs) ydf.length).1 then .error "ValueError"
        else clusterGo sil rows ts (some (ydf, fs))
          ((t, ⟨(selectK (sil ydf fs) ydf.length).1, (selectK (sil ydf fs) ydf.length).2⟩) :: acc)

/-- performance_clustering: the per-type loop when the frame carries the
session_id column, the Python None fall-through otherwise. -/
def performance_clustering (sil : SilOracle) (df : DataFrame) :
    Option (Except String ClusterOutcome) :=
  if df.hasSessionId then
    some (clusterGo sil df.rows (uniqList (df.rows.map (fun r => r.test_type))) none [])
  else none

/-! ## Comparison engine (generate_comparison_analysis) -/

/-- The per-type summary values of one session. -/
structure SessionValues where
  angle_value : Option ℚ
  force_value : Option ℚ
  deriving Repr, DecidableEq, Inhabited

/-- The per-session statistics record: the date is the day number of the
earliest timestamp (the isoformat date the source sorts by), the duration is
in minutes. -/
structure SessionStat where
  session_id : String
  date : ℤ
  duration : ℚ
  values : List (String × SessionValues)
  deriving Repr, DecidableEq, Inhabited

/-- The shared improvement record the comparison loop mutates. -/
structure ImpRec where
  angle : Option ℚ
  force : Option ℚ
  deriving Repr, DecidableEq, Inhabited

/-- The successful payload of generate_comparison_analysis. -/
structure ComparisonResult where
  user_id : String
  analysis_period_days : ℕ
  total_sessions : ℕ
  session_statistics : List SessionStat
  improvements : List (String × ImpRec)
  deriving Repr, DecidableEq, Inhabited

/-- The normal outcomes of generate_comparison_analysis: the two error-marker
dicts, or the results payload. -/
inductive CompOutcome where
  | noData
  | needTwoSessions
  | results (r : ComparisonResult)
  deriving Repr, DecidableEq

/-- The per-type summary values of one session. The third branch tests for a
type literally named force angle test (a name nothing else in the repository
produces) and then filters the WHOLE history frame rather than the session
rows, exactly as the source does. -/
def sessionValuesFor (allRows sd : List Row) (t : String) : SessionValues :=
  let ydf := sd.filter (fun r => r.test_type == t)
  if t = "angle test" then
    { angle_value := omin (angleVals ydf), force_value := none }
  else if t = "force test" then
    { angle_value := none, force_value := omax (forceVals ydf) }
  else if t = "force angle test" then
    let zdf := allRows.filter (fun r =>
      match r.force_value with
      | some v => decide (0 < v)
      | none => false)
    let zs := sortRows zdf
    { angle_value := match zs.head? with
        | some r0 => r0.angle_value
        | none => none
      force_value := omax (forceVals zs) }
  else { angle_value := none, force_value := none }

/-- The statistics record of one session within the history frame. -/
def mkSessionStat (allRows rows : List Row) (sid : String) : SessionStat :=
  let sd := rows.filter (fun r => r.session_id == sid)
  let ts := sd.map (fun r => r.timestamp)
  { session_id := sid
    date := Rat.floor (qmin ts / 86400)
    duration := (qmax ts - qmin ts) / 60
    values := (uniqList (sd.map (fun r => r.test_type))).map
      (fun t => (t, sessionValuesFor allRows sd t)) }

/-- One iteration of the improvement loop over the first-session type keys.
The angle and combined branches test the last-session dict for keys named
angle value and force angle value, names the values dicts never use; a
passing test followed by an absent type key raises KeyError. -/
def impStep (firstVals lastVals : List (String × SessionValues)) (imp : ImpRec)
    (t : String) : Except String ImpRec :=
  if t = "angle test" then
    if (lastVals.lookup "angle value").isSome then
      match firstVals.lookup t, lastVals.lookup t with
      | some fv, some lv => .ok { imp with angle := osub fv.angle_value lv.angle_value }
      | _, _ => .error "KeyError"
    else .ok imp
  else if t = "force test" then
    if (lastVals.lookup "force test").isSome then
      match firstVals.lookup t, lastVals.lookup t with
      | some fv, some lv => .ok { imp with force := osub fv.force_value lv.force_value }
      | _, _ => .error "KeyError"
    else .ok imp
  else if t = "force angle test" then
    if (lastVals.lookup "force angle value").isSome then
      match firstVals.lookup t, lastVals.lookup t with
      | some fv, some lv =>
        .ok { angle := osub fv.angle_value lv.angle_value,
              force := osub fv.force_value lv.force_value }
      | _, _ => .error "KeyError"
    else .ok imp
  else .ok imp

/-- The improvement loop: one mutable record threaded through every key of the
first-session values dict. -/
def impFold (firstVals lastVals : List (String × SessionValues)) :
    List String → ImpRec → Except String ImpRec
  | [], imp => .ok imp
  | t :: ts, imp =>
    match impStep firstVals lastVals imp t with
    | .error e => .error e
    | .ok imp2 => impFold firstVals lastVals ts imp2

/-- generate_comparison_analysis: the no-data marker on an empty frame, the
need-two-sessions marker below 2 distinct sessions, otherwise the per-session
statistics sorted by date and the improvements dict. Every improvements key
receives the same record object, so the observable returned map sends each
first-session type key to the final record of the loop. -/
def generate_comparison_analysis (user_id : String) (days : ℕ) (df : DataFrame) :
    Except String CompOutcome :=
  if df.rows = [] then .ok .noData
  else if (uniqList (df.rows.map (fun r => r.session_id))).length < 2 then
    .ok .needTwoSessions
  else
    match List.insertionSort (fun a b => a.date ≤ b.date)
        ((uniqList (df.rows.map (fun r => r.session_id))).map
          (mkSessionStat df.rows df.rows)) with
    | [] => .ok .needTwoSessions
    | first :: rest =>
      match impFold first.values (rest.getLastD first).values
          (first.values.map Prod.fst) ⟨none, none⟩ with
      | .error e => .error e
      | .ok finalImp =>
        .ok (.results
          { user_id := user_id
            analysis_period_days := days
            total_sessions := (uniqList (df.rows.map (fun r => r.session_id))).length
            session_statistics := first :: rest
            improvements := (first.values.map Prod.fst).map (fun t => (t, finalImp)) })

/-! ## Data-collection loop (start_data_collection)

The loop is embedded as a function of the trace it consumes: each loop pass
reads the is_running flag (set by another thread) and, when every guard
passes, performs one poll whose outcome the trace supplies. Wall-clock time
advances by one interval per pass (the sleep), so the elapsed time at the top
of pass i is i * interval. The try/except around the body converts a raised
poll into an error count increment, so no exception escapes the loop. -/

/-- The outcome of one poll: a saved sample, a None reading (nothing saved),
or a raised exception. -/
inductive PollResult where
  | ok
  | noData
  | failed
  deriving Repr, DecidableEq

/-- One loop pass of the trace: the is_running value read by the guard, and
the poll outcome were the body to run. -/
structure Event where
  running : Bool
  poll : PollResult
  deriving Repr, DecidableEq

/-- The loop counters. -/
structure CollectState where
  data_count : ℕ
  error_count : ℕ
  steps : ℕ
  deriving Repr, DecidableEq

/-- Why the loop returned: the stop flag, the duration timeout, the error
threshold, or the finite trace running out with the loop still live. -/
inductive StopReason where
  | stopped
  | timeout
  | tooManyErrors
  | fuelOut
  deriving Repr, DecidableEq

/-- The max_errors constant of the source. -/
def max_errors : ℕ := 10

/-- The while loop of start_data_collection. The guard order and the counter
updates follow the source: error_count is incremented in the except arm and
never reset by a successful pass. -/
def collectLoop (duration interval : ℚ) : List Event → CollectState → CollectState × StopReason
  | [], st => (st, .fuelOut)
  | e :: rest, st =>
    if e.running = false then (st, .stopped)
    else if ¬ ((st.steps : ℚ) * interval < duration) then (st, .timeout)
    else if ¬ (st.error_count < max_errors) then (st, .tooManyErrors)
    else match e.poll with
      | .ok => collectLoop duration interval rest
          { data_count := st.data_count + 1, error_count := st.error_count, steps := st.steps + 1 }
      | .noData => collectLoop duration interval rest
          { data_count := st.data_count, error_count := st.error_count, steps := st.steps + 1 }
      | .failed => collectLoop duration interval rest
          { data_count := st.data_count, error_count := st.error_count + 1, steps := st.steps + 1 }

/-- start_data_collection: the loop from zeroed counters. -/
def start_data_collection (duration interval : ℚ) (events : List Event) :
    CollectState × StopReason :=
  collectLoop duration interval events { data_count := 0, error_count := 0, steps := 0 }

/-- The number of raised polls within a trace. -/
def countErrors : List Event → ℕ
  | [] => 0
  | e :: rest => (if e.poll = PollResult.failed then 1 else 0) + countErrors rest

/-- The longest run of consecutive raised polls within a trace. -/
def maxConsecErrors (evs : List Event) : ℕ :=
  (evs.foldl (fun (p : ℕ × ℕ) e =>
      match e.poll with
      | .failed => (p.1 + 1, max p.2 (p.1 + 1))
      | _ => (0, p.2)) ((0 : ℕ), (0 : ℕ))).2

/-! ## Helper lemmas -/

theorem foldl_max_bounds (as : List ℚ) (a : ℚ) :
    a ≤ as.foldl max a ∧ ∀ x ∈ as, x ≤ as.foldl max a := by
  induction as generalizing a with
  | nil => exact ⟨le_refl a, by intro x hx; cases hx⟩
  | cons b bs ih =>
    have h := ih (max a b)
    refine ⟨le_trans (le_max_left a b) h.1, ?_⟩
    intro x hx
    rcases List.mem_cons.mp hx with rfl | hx
    · exact le_trans (le_max_right a x) h.1
    · exact h.2 x hx

theorem foldl_min_bounds (as : List ℚ) (a : ℚ) :
    as.foldl min a ≤ a ∧ ∀ x ∈ as, as.foldl min a ≤ x := by
  induction as generalizing a with
  | nil => exact ⟨le_refl a, by intro x hx; cases hx⟩
  | cons b bs ih =>
    have h := ih (min a b)
    refine ⟨le_trans h.1 (min_le_left a b), ?_⟩
    intro x hx
    rcases List.mem_cons.mp hx with rfl | hx
    · exact le_trans h.1 (min_le_right a x)
    · exact h.2 x hx

theorem le_qmax_of_mem {l : List ℚ} {x : ℚ} (h : x ∈ l) : x ≤ qmax l := by
  cases l with
  | nil => cases h
  | cons a as =>
    rcases List.mem_cons.mp h with rfl | h
    · exact (foldl_max_bounds as x).1
    · exact (foldl_max_bounds as a).2 x h

theorem qmin_le_of_mem {l : List ℚ} {x : ℚ} (h : x ∈ l) : qmin l ≤ x := by
  cases l with
  | nil => cases h
  | cons a as =>
    rcases List.mem_cons.mp h with rfl | h
    · exact (foldl_min_bounds as x).1
    · exact (foldl_min_bounds as a).2 x h

theorem qmean_le_qmax {l : List ℚ} (h : l ≠ []) : qmean l ≤ qmax l := by
  have hlen : 0 < (l.length : ℚ) := by
    have := List.length_pos.mpr h
    exact_mod_cast this
  have hsum : l.sum ≤ l.length • qmax l :=
    List.sum_le_card_nsmul l (qmax l) (fun x hx => le_qmax_of_mem hx)
  rw [nsmul_eq_mul] at hsum
  rw [qmean, div_le_iff₀ hlen]
  linarith [hsum]

theorem qmin_le_qmean {l : List ℚ} (h : l ≠ []) : qmin l ≤ qmean l := by
  have hlen : 0 < (l.length : ℚ) := by
    have := List.length_pos.mpr h
    exact_mod_cast this
  have hsum : l.length • qmin l ≤ l.sum :=
    List.card_nsmul_le_sum l (qmin l) (fun x hx => qmin_le_of_mem hx)
  rw [nsmul_eq_mul] at hsum
  rw [qmean, le_div_iff₀ hlen]
  linarith [hsum]

theorem mem_uniqAux : ∀ (l seen : List String) (t : String),
    t ∈ uniqAux seen l ↔ t ∈ l ∧ t ∉ seen := by
  intro l
  induction l with
  | nil =>
    intro seen t
    simp [uniqAux]
  | cons x xs ih =>
    intro seen t
    by_cases hx : x ∈ seen
    · rw [uniqAux, if_pos hx, ih]
      constructor
      · rintro ⟨h1, h2⟩
        exact ⟨List.mem_cons_of_mem _ h1, h2⟩
      · rintro ⟨h1, h2⟩
        rcases List.mem_cons.mp h1 with rfl | h1
        · exact absurd hx h2
        · exact ⟨h1, h2⟩
    · rw [uniqAux, if_neg hx]
      constructor
      · intro h
        rcases List.mem_cons.mp h with rfl | h
        · exact ⟨List.mem_cons_self _ _, hx⟩
        · have h3 := (ih _ t).mp h
          refine ⟨List.mem_cons_of_mem _ h3.1, ?_⟩
          intro hseen
          exact h3.2 (List.mem_cons_of_mem _ hseen)
      · rintro ⟨h1, h2⟩
        rcases List.mem_cons.mp h1 with rfl | h1
        · exact List.mem_cons_self _ _
        · by_cases hxt : t = x
          · subst hxt
            exact List.mem_cons_self _ _
          · apply List.mem_cons_of_mem
            apply (ih _ t).mpr
            refine ⟨h1, ?_⟩
            intro hc
            rcases List.mem_cons.mp hc with h4 | h4
            · exact hxt h4
            · exact h2 h4

theorem mem_uniqList {l : List String} {t : String} : t ∈ uniqList l ↔ t ∈ l := by
  rw [uniqList, mem_uniqAux]
  simp

theorem uniqAux_all_seen : ∀ (l seen : List String), (∀ x ∈ l, x ∈ seen) →
    uniqAux seen l = [] := by
  intro l
  induction l with
  | nil =>
    intro seen _
    rfl
  | cons x xs ih =>
    intro seen hall
    rw [uniqAux, if_pos (hall x (List.mem_cons_self _ _))]
    exact ih seen (fun y hy => hall y (List.mem_cons_of_mem _ hy))

theorem uniqList_const {l : List String} {s : String}
    (hall : ∀ x ∈ l, x = s) (hne : l ≠ []) : uniqList l = [s] := by
  cases l with
  | nil => exact absurd rfl hne
  | cons x xs =>
    have hx : x = s := hall x (List.mem_cons_self _ _)
    subst hx
    rw [uniqList, uniqAux]
    rw [if_neg (List.not_mem_nil x)]
    rw [uniqAux_all_seen xs [x] (fun y hy => by
      have := hall y (List.mem_cons_of_mem _ hy)
      simp [this])]

theorem lookup_map_self {β : Type} (f : String → β) :
    ∀ (u : List String) (t : String), t ∈ u →
      ((u.map (fun x => (x, f x))).lookup t) = some (f t) := by
  intro u
  induction u with
  | nil => intro t ht; cases ht
  | cons x xs ih =>
    intro t ht
    rcases List.mem_cons.mp ht with rfl | ht
    · simp [List.lookup]
    · by_cases hx : t = x
      · subst hx; simp [List.lookup]
      · simp only [List.map_cons, List.lookup]
        have : (t == x) = false := by simpa using hx
        rw [this]
        exact ih t ht

theorem lookup_isSome_iff {β : Type} :
    ∀ (l : List (String × β)) (t : String),
      (l.lookup t).isSome ↔ t ∈ l.map Prod.fst := by
  intro l
  induction l with
  | nil => intro t; simp [List.lookup]
  | cons p ps ih =>
    intro t
    by_cases hx : t = p.1
    · subst hx
      simp [List.lookup]
    · simp only [List.map_cons, List.mem_cons, List.lookup]
      have hbeq : (t == p.1) = false := by simpa using hx
      cases p with
      | mk a b =>
        simp only at hbeq
        rw [hbeq]
        simp [ih, hx]

theorem stats_shape (df : DataFrame) (res : List (String × TypeStats))
    (h : basic_statistical_analysis df = .ok res) :
    ∀ t ts, (t, ts) ∈ res →
      ts = typeStatsFor df.rows t ∧ t ∈ df.rows.map (fun r => r.test_type) := by
  intro t ts hmem
  by_cases hrows : df.rows = []
  · rw [basic_statistical_analysis, if_pos hrows] at h
    cases h
  · rw [basic_statistical_analysis, if_neg hrows] at h
    injection h with h
    subst h
    obtain ⟨t2, ht2, heq⟩ := List.mem_map.mp hmem
    have h1 : t2 = t := congrArg Prod.fst heq
    have h2 : typeStatsFor df.rows t2 = ts := congrArg Prod.snd heq
    subst h1
    exact ⟨h2.symm, mem_uniqList.mp ht2⟩

theorem foldl_inv {α β : Type} (P : β → Prop) (f : β → α → β) :
    ∀ (l : List α) (init : β), P init → (∀ b a, a ∈ l → P b → P (f b a)) →
      P (l.foldl f init) := by
  intro l
  induction l with
  | nil => intro init h0 _; exact h0
  | cons x xs ih =>
    intro init h0 hstep
    exact ih (f init x) (hstep init x (List.mem_cons_self _ _) h0)
      (fun b a ha hb => hstep b a (List.mem_cons_of_mem _ ha) hb)

/-! ## Claim theorems -/

/-- C2 (code bug): for a FORCE_AND_ANGLE session with a single sample the
angle maximum equals the angle minimum, the source divides by that zero
difference with no guard, and the per-type score is NaN (modeled none) rather
than the defined, non-NaN, non-infinite score the claim requires; the NaN then
fails every grade threshold and grades D. -/
theorem C2_single_sample_score_is_nan :
    generate_performance_score [⟨0, "force and angle test", some 50, some 30, "s1"⟩] =
      .ok ([("force and angle test", none)], 'D') := by with_unfolding_all decide

/-- C3 (code bug): on a FORCE_AND_ANGLE session whose force values are all at
most 10, the baseline filter (force greater than 10) is empty and the iloc[0]
baseline indexing raises IndexError instead of reporting a defined fallback
score. -/
theorem C3_low_force_raises_index_error :
    (∀ r ∈ List.replicate 18 (⟨0, "force and angle test", some 5, some 20, "s1"⟩ : Row),
      r.force_value = some 5) ∧ (5 : ℚ) ≤ 10 ∧
    generate_performance_score
      (List.replicate 18 (⟨0, "force and angle test", some 5, some 20, "s1"⟩ : Row)) =
      .error "IndexError" := by with_unfolding_all decide

/-- C1 (counterexample): a non-empty single-session sample set loaded through
load_session_data has no session_id column, so trend_analysis falls through
its column guard and returns the Python None — it produces nothing, not a
one-entry session_trends list. -/
theorem C1_counterexample :
    (load_session_data [⟨0, "force test", some 50, none, "s1"⟩]).rows ≠ [] ∧
    trend_analysis (load_session_data [⟨0, "force test", some 50, none, "s1"⟩]) = none := by
  with_unfolding_all decide

/-- C1 (amended): when the dataframe does carry the session_id column (as the
multi-session historical loader provides) and all rows belong to one session,
trend_analysis produces, for each recognized test_type present, a
session_trends list that degenerates to exactly one entry holding the session
id, the first timestamp, the duration in minutes, and the average/maximum of
the channels relevant to that type; the single-session pipeline itself,
whose frame lacks the column, instead returns nothing. -/
theorem C1_amended (rows : List Row) (s t : String)
    (hs : ∀ r ∈ rows, r.session_id = s)
    (hmem : t ∈ rows.map (fun r => r.test_type))
    (ht : t = "force test" ∨ t = "angle test" ∨ t = "force and angle test") :
    ∃ res, trend_analysis ⟨rows, true⟩ = some (.ok res) ∧
      res.lookup t = some (trendForType rows t) ∧
      ∃ sts, (trendForType rows t).session_trends = some sts ∧
        sts.length = 1 ∧
        ∀ e ∈ sts,
          e.session_id = s ∧
          e.timestamp =
            qmin ((rows.filter (fun r => r.test_type == t)).map (fun r => r.timestamp)) ∧
          e.duration_minutes =
            (qmax ((rows.filter (fun r => r.test_type == t)).map (fun r => r.timestamp)) -
             qmin ((rows.filter (fun r => r.test_type == t)).map (fun r => r.timestamp))) / 60 ∧
          (t ≠ "angle test" →
            e.avg_force = omean (forceVals (rows.filter (fun r => r.test_type == t))) ∧
            e.max_force = omax (forceVals (rows.filter (fun r => r.test_type == t)))) ∧
          (t ≠ "force test" →
            e.avg_angle = omean (angleVals (rows.filter (fun r => r.test_type == t))) ∧
            e.max_angle = omax (angleVals (rows.filter (fun r => r.test_type == t)))) := by
  have hrows : rows ≠ [] := by
    intro h
    subst h
    simp at hmem
  refine ⟨(uniqList (rows.map (fun r => r.test_type))).map
      (fun t2 => (t2, trendForType rows t2)), ?_, ?_, ?_⟩
  · simp [trend_analysis, hrows]
  · exact lookup_map_self _ _ t (mem_uniqList.mpr hmem)
  · obtain ⟨r0, hr0mem, hr0t⟩ := List.mem_map.mp hmem
    have hydf_ne : rows.filter (fun r => r.test_type == t) ≠ [] := by
      intro hnil
      have hr0f : r0 ∈ rows.filter (fun r => r.test_type == t) :=
        List.mem_filter.mpr ⟨hr0mem, by simp [hr0t]⟩
      rw [hnil] at hr0f
      cases hr0f
    have hsid : uniqList ((rows.filter (fun r => r.test_type == t)).map
        (fun r => r.session_id)) = [s] := by
      apply uniqList_const
      · intro x hx
        obtain ⟨r, hr, hrx⟩ := List.mem_map.mp hx
        rw [← hrx]
        exact hs r (List.mem_filter.mp hr).1
      · simp [hydf_ne]
    have hfsid : (rows.filter (fun r => r.test_type == t)).filter
        (fun r => r.session_id == s) = rows.filter (fun r => r.test_type == t) := by
      apply List.filter_eq_self.mpr
      intro r hr
      simp [hs r (List.mem_filter.mp hr).1]
    rcases ht with rfl | rfl | rfl
    · refine ⟨[mkSessionTrend (rows.filter (fun r => r.test_type == "force test")) true false s],
        by simp [trendForType, hsid], rfl, ?_⟩
      intro e he
      rw [List.mem_singleton] at he
      subst he
      simp [mkSessionTrend, hfsid]
    · refine ⟨[mkSessionTrend (rows.filter (fun r => r.test_type == "angle test")) false true s],
        by simp [trendForType, hsid], rfl, ?_⟩
      intro e he
      rw [List.mem_singleton] at he
      subst he
      simp [mkSessionTrend, hfsid]
    · refine ⟨[mkSessionTrend (rows.filter (fun r => r.test_type == "force and angle test"))
          true true s],
        by simp [trendForType, hsid], rfl, ?_⟩
      intro e he
      rw [List.mem_singleton] at he
      subst he
      simp [mkSessionTrend, hfsid]

/-- C1 witness: the amended theorem applied to a concrete one-session,
one-row force-test frame. -/
theorem C1_amended_witness :
    (∀ r ∈ [(⟨0, "force test", some 50, some 0, "s1"⟩ : Row)], r.session_id = "s1") ∧
    (∃ res, trend_analysis ⟨[(⟨0, "force test", some 50, some 0, "s1"⟩ : Row)], true⟩ =
        some (.ok res) ∧
      res.lookup "force test" =
        some (trendForType [(⟨0, "force test", some 50, some 0, "s1"⟩ : Row)] "force test") ∧
      ∃ sts, (trendForType [(⟨0, "force test", some 50, some 0, "s1"⟩ : Row)]
          "force test").session_trends = some sts ∧
        sts.length = 1 ∧
        ∀ e ∈ sts,
          e.session_id = "s1" ∧
          e.timestamp = qmin ((([(⟨0, "force test", some 50, some 0, "s1"⟩ : Row)]).filter
            (fun r => r.test_type == "force test")).map (fun r => r.timestamp)) ∧
          e.duration_minutes =
            (qmax ((([(⟨0, "force test", some 50, some 0, "s1"⟩ : Row)]).filter
              (fun r => r.test_type == "force test")).map (fun r => r.timestamp)) -
             qmin ((([(⟨0, "force test", some 50, some 0, "s1"⟩ : Row)]).filter
              (fun r => r.test_type == "force test")).map (fun r => r.timestamp))) / 60 ∧
          ("force test" ≠ "angle test" →
            e.avg_force = omean (forceVals (([(⟨0, "force test", some 50, some 0, "s1"⟩ : Row)]).filter
              (fun r => r.test_type == "force test"))) ∧
            e.max_force = omax (forceVals (([(⟨0, "force test", some 50, some 0, "s1"⟩ : Row)]).filter
              (fun r => r.test_type == "force test")))) ∧
          ("force test" ≠ "force test" →
            e.avg_angle = omean (angleVals (([(⟨0, "force test", some 50, some 0, "s1"⟩ : Row)]).filter
              (fun r => r.test_type == "force test"))) ∧
            e.max_angle = omax (angleVals (([(⟨0, "force test", some 50, some 0, "s1"⟩ : Row)]).filter
              (fun r => r.test_type == "force test"))))) :=
  ⟨by decide,
   C1_amended [(⟨0, "force test", some 50, some 0, "s1"⟩ : Row)] "s1" "force test"
     (by decide) (by decide) (Or.inl rfl)⟩

/-- C8 (confirmed): in every per-type group of basic_statistical_analysis, a
present force block satisfies min at most mean at most max and counts exactly
the non-null force samples of the group; a group whose force channel is
entirely null omits the block; the same holds independently for the angle
channel; and an empty input yields the error marker, not an exception. -/
theorem C8_stats_sound (df : DataFrame) :
    (df.rows = [] → basic_statistical_analysis df = .error "No data found") ∧
    (∀ res, basic_statistical_analysis df = .ok res → ∀ t ts, (t, ts) ∈ res →
      (∀ cs, ts.force = some cs →
        cs.min ≤ cs.mean ∧ cs.mean ≤ cs.max ∧
        cs.count = (forceVals (df.rows.filter (fun r => r.test_type == t))).length) ∧
      (forceVals (df.rows.filter (fun r => r.test_type == t)) = [] → ts.force = none) ∧
      (∀ cs, ts.angle = some cs →
        cs.min ≤ cs.mean ∧ cs.mean ≤ cs.max ∧
        cs.count = (angleVals (df.rows.filter (fun r => r.test_type == t))).length) ∧
      (angleVals (df.rows.filter (fun r => r.test_type == t)) = [] → ts.angle = none)) := by
  constructor
  · intro h
    rw [basic_statistical_analysis, if_pos h]
  · intro res h t ts hmem
    obtain ⟨hts, -⟩ := stats_shape df res h t ts hmem
    subst hts
    refine ⟨?_, ?_, ?_, ?_⟩
    · intro cs hcs
      rw [typeStatsFor] at hcs
      by_cases hempty : forceVals (df.rows.filter (fun r => r.test_type == t)) = []
      · rw [if_pos hempty] at hcs
        cases hcs
      · rw [if_neg hempty] at hcs
        injection hcs with hcs
        subst hcs
        exact ⟨qmin_le_qmean hempty, qmean_le_qmax hempty, rfl⟩
    · intro hempty
      rw [typeStatsFor]
      simp [hempty]
    · intro cs hcs
      rw [typeStatsFor] at hcs
      by_cases hempty : angleVals (df.rows.filter (fun r => r.test_type == t)) = []
      · rw [if_pos hempty] at hcs
        cases hcs
      · rw [if_neg hempty] at hcs
        injection hcs with hcs
        subst hcs
        exact ⟨qmin_le_qmean hempty, qmean_le_qmax hempty, rfl⟩
    · intro hempty
      rw [typeStatsFor]
      simp [hempty]

/-- C8 witness: the soundness theorem applied to a concrete two-row force-test
frame whose statistics block is mean 6, min 5, max 7, count 2. -/
theorem C8_stats_sound_witness :
    (⟨6, 5, 7, 6, 2⟩ : ChannelStats).min ≤ (⟨6, 5, 7, 6, 2⟩ : ChannelStats).mean ∧
    (⟨6, 5, 7, 6, 2⟩ : ChannelStats).mean ≤ (⟨6, 5, 7, 6, 2⟩ : ChannelStats).max ∧
    (⟨6, 5, 7, 6, 2⟩ : ChannelStats).count =
      (forceVals (((⟨[⟨0, "force test", some 5, none, "s"⟩,
        ⟨1, "force test", some 7, none, "s"⟩], false⟩ : DataFrame)).rows.filter
          (fun r => r.test_type == "force test"))).length :=
  ((C8_stats_sound ⟨[⟨0, "force test", some 5, none, "s"⟩,
      ⟨1, "force test", some 7, none, "s"⟩], false⟩).2
    [("force test", ⟨some ⟨6, 5, 7, 6, 2⟩, none⟩)]
    (by with_unfolding_all decide)
    "force test" ⟨some ⟨6, 5, 7, 6, 2⟩, none⟩
    (by with_unfolding_all decide)).1 ⟨6, 5, 7, 6, 2⟩ rfl

/-- The length of a timestamp sort. -/
theorem sortRows_length (l : List Row) : (sortRows l).length = l.length :=
  List.length_insertionSort _ l

/-- Shape of the overall_trends block of one type branch. -/
theorem overallFor_char (ydf : List Row) (useF useA : Bool) :
    ((overallFor ydf useF useA).isSome ↔ 10 < ydf.length) ∧
    (∀ ot imp, overallFor ydf useF useA = some ot → ot.force_improvement = some imp →
      imp = mkImprovement (forceVals ((sortRows ydf).take (ydf.length / 2)))
                          (forceVals ((sortRows ydf).drop (ydf.length / 2)))) ∧
    (∀ ot imp, overallFor ydf useF useA = some ot → ot.angle_improvement = some imp →
      imp = mkImprovement (angleVals ((sortRows ydf).take (ydf.length / 2)))
                          (angleVals ((sortRows ydf).drop (ydf.length / 2)))) := by
  rw [overallFor]
  simp only [sortRows_length]
  by_cases hc : 10 < ydf.length
  · rw [if_pos hc]
    refine ⟨by simp [hc], ?_, ?_⟩
    · intro ot imp hot himp
      injection hot with hot
      subst hot
      cases useF with
      | true =>
        simp only [if_pos] at himp
        injection himp with himp
        exact himp.symm
      | false =>
        simp at himp
    · intro ot imp hot himp
      injection hot with hot
      subst hot
      cases useA with
      | true =>
        simp only [if_pos] at himp
        injection himp with himp
        exact himp.symm
      | false =>
        simp at himp
  · rw [if_neg hc]
    refine ⟨by simp [hc], ?_, ?_⟩
    · intro ot imp hot
      cases hot
    · intro ot imp hot
      cases hot

/-- The change and the zero-mean percentage guard of an improvement block. -/
theorem mkImprovement_char (fh sh : List ℚ) :
    (mkImprovement fh sh).change = qmean sh - qmean fh ∧
    (qmean fh = 0 → (mkImprovement fh sh).percentage = 0) := by
  constructor
  · rfl
  · intro hz
    simp [mkImprovement, hz]

/-- C6 (confirmed): for each recognized test type, the overall-trend block of
the trend analysis is present exactly when the type-filtered row count exceeds
10 (absent at 10 rows, present at 11); when present, each emitted channel
improvement has change equal to the mean of the second half minus the mean of
the first half of the timestamp-sorted type rows split at the integer
midpoint, and its percentage is 0 whenever the first-half mean is exactly 0. -/
theorem C6_overall_trend_boundary (rows : List Row) (t : String)
    (ht : t = "force test" ∨ t = "angle test" ∨ t = "force and angle test") :
    ((trendForType rows t).overall_trends.isSome ↔
      10 < (rows.filter (fun r => r.test_type == t)).length) ∧
    (∀ ot imp, (trendForType rows t).overall_trends = some ot →
      ot.force_improvement = some imp →
      imp.change =
        qmean (forceVals ((sortRows (rows.filter (fun r => r.test_type == t))).drop
          ((rows.filter (fun r => r.test_type == t)).length / 2))) -
        qmean (forceVals ((sortRows (rows.filter (fun r => r.test_type == t))).take
          ((rows.filter (fun r => r.test_type == t)).length / 2))) ∧
      (qmean (forceVals ((sortRows (rows.filter (fun r => r.test_type == t))).take
          ((rows.filter (fun r => r.test_type == t)).length / 2))) = 0 →
        imp.percentage = 0)) ∧
    (∀ ot imp, (trendForType rows t).overall_trends = some ot →
      ot.angle_improvement = some imp →
      imp.change =
        qmean (angleVals ((sortRows (rows.filter (fun r => r.test_type == t))).drop
          ((rows.filter (fun r => r.test_type == t)).length / 2))) -
        qmean (angleVals ((sortRows (rows.filter (fun r => r.test_type == t))).take
          ((rows.filter (fun r => r.test_type == t)).length / 2))) ∧
      (qmean (angleVals ((sortRows (rows.filter (fun r => r.test_type == t))).take
          ((rows.filter (fun r => r.test_type == t)).length / 2))) = 0 →
        imp.percentage = 0)) := by
  have main : ∀ (useF useA : Bool),
      (trendForType rows t).overall_trends =
        overallFor (rows.filter (fun r => r.test_type == t)) useF useA →
      (((trendForType rows t).overall_trends.isSome ↔
        10 < (rows.filter (fun r => r.test_type == t)).length) ∧
      (∀ ot imp, (trendForType rows t).overall_trends = some ot →
        ot.force_improvement = some imp →
        imp.change =
          qmean (forceVals ((sortRows (rows.filter (fun r => r.test_type == t))).drop
            ((rows.filter (fun r => r.test_type == t)).length / 2))) -
          qmean (forceVals ((sortRows (rows.filter (fun r => r.test_type == t))).take
            ((rows.filter (fun r => r.test_type == t)).length / 2))) ∧
        (qmean (forceVals ((sortRows (rows.filter (fun r => r.test_type == t))).take
            ((rows.filter (fun r => r.test_type == t)).length / 2))) = 0 →
          imp.percentage = 0)) ∧
      (∀ ot imp, (trendForType rows t).overall_trends = some ot →
        ot.angle_improvement = some imp →
        imp.change =
          qmean (angleVals ((sortRows (rows.filter (fun r => r.test_type == t))).drop
            ((rows.filter (fun r => r.test_type == t)).length / 2))) -
          qmean (angleVals ((sortRows (rows.filter (fun r => r.test_type == t))).take
            ((rows.filter (fun r => r.test_type == t)).length / 2))) ∧
        (qmean (angleVals ((sortRows (rows.filter (fun r => r.test_type == t))).take
            ((rows.filter (fun r => r.test_type == t)).length / 2))) = 0 →
          imp.percentage = 0))) := by
    intro useF useA he
    obtain ⟨h1, h2, h3⟩ := overallFor_char (rows.filter (fun r => r.test_type == t)) useF useA
    rw [he]
    refine ⟨h1, ?_, ?_⟩
    · intro ot imp hot himp
      have := h2 ot imp hot himp
      subst this
      exact (mkImprovement_char _ _)
    · intro ot imp hot himp
      have := h3 ot imp hot himp
      subst this
      exact (mkImprovement_char _ _)
  rcases ht with rfl | rfl | rfl
  · exact main true false (by rw [trendForType, if_pos rfl])
  · exact main false true (by rw [trendForType, if_neg (by decide), if_pos rfl])
  · exact main true true (by rw [trendForType, if_neg (by decide), if_neg (by decide), if_pos rfl])

/-- C6 witness: the boundary theorem applied at 11 and at 10 force-test rows:
present at 11, absent at 10. -/
theorem C6_overall_trend_boundary_witness :
    (trendForType (List.replicate 11 (⟨0, "force test", some 5, none, "s1"⟩ : Row))
        "force test").overall_trends.isSome ∧
    (trendForType (List.replicate 10 (⟨0, "force test", some 5, none, "s1"⟩ : Row))
        "force test").overall_trends = none := by
  constructor
  · exact (C6_overall_trend_boundary
        (List.replicate 11 (⟨0, "force test", some 5, none, "s1"⟩ : Row)) "force test"
        (Or.inl rfl)).1.mpr (by with_unfolding_all decide)
  · have h := (C6_overall_trend_boundary
        (List.replicate 10 (⟨0, "force test", some 5, none, "s1"⟩ : Row)) "force test"
        (Or.inl rfl)).1
    have h2 : ¬ (10 < ((List.replicate 10 (⟨0, "force test", some 5, none, "s1"⟩ : Row)).filter
        (fun r => r.test_type == "force test")).length) := by with_unfolding_all decide
    exact Option.not_isSome_iff_eq_none.mp (fun hs => h2 (h.mp hs))

/-- fillna turns the force column into the null-replaced total column. -/
theorem forceVals_map_fillna (l : List Row) :
    forceVals (l.map fillna0) = l.map (fun r => r.force_value.getD 0) := by
  induction l with
  | nil => rfl
  | cons r rs ih =>
    rw [List.map_cons, List.map_cons, forceVals,
      List.filterMap_cons_some
        (show (fillna0 r).force_value = some (r.force_value.getD 0) from rfl)]
    rw [forceVals] at ih
    rw [ih]

/-- fillna turns the angle column into the null-replaced total column. -/
theorem angleVals_map_fillna (l : List Row) :
    angleVals (l.map fillna0) = l.map (fun r => r.angle_value.getD 0) := by
  induction l with
  | nil => rfl
  | cons r rs ih =>
    rw [List.map_cons, List.map_cons, angleVals,
      List.filterMap_cons_some
        (show (fillna0 r).angle_value = some (r.angle_value.getD 0) from rfl)]
    rw [angleVals] at ih
    rw [ih]

/-- C10 (confirmed): on a non-empty session, load_session_data replaces every
null channel value with a fabricated 0 before any analysis runs, and in
consequence every per-type statistics block of the single-session pipeline is
computed over the whole group — its count equals the total number of rows of
that type, nulls included, rather than the number of genuinely non-null
samples. -/
theorem C10_fillna_fabricates (dbRows : List Row) (h : dbRows ≠ []) :
    ((load_session_data dbRows).rows.map (fun r => r.force_value) =
      dbRows.map (fun r => some (r.force_value.getD 0))) ∧
    ((load_session_data dbRows).rows.map (fun r => r.angle_value) =
      dbRows.map (fun r => some (r.angle_value.getD 0))) ∧
    (∀ res, basic_statistical_analysis (load_session_data dbRows) = .ok res →
      ∀ t ts, (t, ts) ∈ res →
        (∃ cs, ts.force = some cs ∧
          cs.count = (dbRows.filter (fun r => r.test_type == t)).length) ∧
        (∃ cs, ts.angle = some cs ∧
          cs.count = (dbRows.filter (fun r => r.test_type == t)).length)) := by
  have hload : load_session_data dbRows = ⟨dbRows.map fillna0, false⟩ := by
    rw [load_session_data, if_neg h]
  refine ⟨?_, ?_, ?_⟩
  · rw [hload]
    show (dbRows.map fillna0).map (fun r => r.force_value) = _
    rw [List.map_map]
    rfl
  · rw [hload]
    show (dbRows.map fillna0).map (fun r => r.angle_value) = _
    rw [List.map_map]
    rfl
  · intro res hres t ts hmem
    obtain ⟨hts, htmem⟩ := stats_shape _ res hres t ts hmem
    rw [hload] at hts htmem
    have htmem2 : t ∈ dbRows.map (fun r => r.test_type) := by
      rw [List.map_map] at htmem
      exact htmem
    obtain ⟨r1, hr1, hr1t⟩ := List.mem_map.mp htmem2
    have hfilter_ne : dbRows.filter (fun r => r.test_type == t) ≠ [] := by
      intro hnil
      have hr1f : r1 ∈ dbRows.filter (fun r => r.test_type == t) :=
        List.mem_filter.mpr ⟨hr1, by simp [hr1t]⟩
      rw [hnil] at hr1f
      cases hr1f
    have hcomm : (dbRows.map fillna0).filter (fun r => r.test_type == t) =
        (dbRows.filter (fun r => r.test_type == t)).map fillna0 := by
      rw [List.filter_map]
      rfl
    have hfv : forceVals ((dbRows.map fillna0).filter (fun r => r.test_type == t)) =
        (dbRows.filter (fun r => r.test_type == t)).map (fun r => r.force_value.getD 0) := by
      rw [hcomm, forceVals_map_fillna]
    have hav : angleVals ((dbRows.map fillna0).filter (fun r => r.test_type == t)) =
        (dbRows.filter (fun r => r.test_type == t)).map (fun r => r.angle_value.getD 0) := by
      rw [hcomm, angleVals_map_fillna]
    have hfne : forceVals ((dbRows.map fillna0).filter (fun r => r.test_type == t)) ≠ [] := by
      rw [hfv]
      simp [hfilter_ne]
    have hane : angleVals ((dbRows.map fillna0).filter (fun r => r.test_type == t)) ≠ [] := by
      rw [hav]
      simp [hfilter_ne]
    subst hts
    constructor
    · refine ⟨channelStats (forceVals ((dbRows.map fillna0).filter
        (fun r => r.test_type == t))), ?_, ?_⟩
      · rw [typeStatsFor]
        simp only [if_neg hfne]
      · show (forceVals ((dbRows.map fillna0).filter (fun r => r.test_type == t))).length = _
        rw [hfv, List.length_map]
    · refine ⟨channelStats (angleVals ((dbRows.map fillna0).filter
        (fun r => r.test_type == t))), ?_, ?_⟩
      · rw [typeStatsFor]
        simp only [if_neg hane]
      · show (angleVals ((dbRows.map fillna0).filter (fun r => r.test_type == t))).length = _
        rw [hav, List.length_map]

/-- C10 witness: the theorem applied to a one-row session whose angle channel
is null: the angle statistics block is nevertheless present and counts that
row, through the fabricated 0. -/
theorem C10_fillna_fabricates_witness :
    [(⟨0, "force test", some 5, none, "s"⟩ : Row)] ≠ [] ∧
    (∃ cs, (⟨some (channelStats [(5 : ℚ)]), some (channelStats [(0 : ℚ)])⟩ : TypeStats).angle =
        some cs ∧
      cs.count = ([(⟨0, "force test", some 5, none, "s"⟩ : Row)].filter
        (fun r => r.test_type == "force test")).length) :=
  ⟨by decide,
   ((C10_fillna_fabricates [⟨0, "force test", some 5, none, "s"⟩] (by decide)).2.2
      [("force test", ⟨some (channelStats [(5 : ℚ)]), some (channelStats [(0 : ℚ)])⟩)]
      (by with_unfolding_all decide)
      "force test" ⟨some (channelStats [(5 : ℚ)]), some (channelStats [(0 : ℚ)])⟩
      (by with_unfolding_all decide)).2⟩

/-- A silhouette oracle whose fits are always single-cluster (every score
skipped), the simplest concrete oracle. -/
def silNone : SilOracle := fun _ _ _ => none

/-- C4 (code bug): the misspelled branch literals of performance_clustering
never match the type names the rest of the repository stores, so an angle-test
or combined-test group is never given its matching feature set; a frame whose
first type is the real angle test reads the ydf/features local before any
branch has assigned it and raises UnboundLocalError. -/
theorem C4_feature_branches_never_match :
    featuresFor "angle test" = none ∧
    featuresFor "force and angle test" = none ∧
    featuresFor "force test" = some [Feature.force] ∧
    performance_clustering silNone
      ⟨List.replicate 16 (⟨0, "angle test", none, some 30, "s1"⟩ : Row), true⟩ =
      some (.error "UnboundLocalError") := by
  with_unfolding_all decide

/-- A 16-row frame holding 8 force-test rows and 8 rows of the misspelled
angle type the clustering branch recognizes; each type has fewer than 16
samples while the whole frame has 16. -/
def df16 : DataFrame :=
  ⟨(List.range 8).map (fun i => (⟨(i : ℚ), "force test", some ((i : ℚ) + 1), none, "s1"⟩ : Row)) ++
   (List.range 8).map (fun i =>
     (⟨(i : ℚ) + 8, "angle_test", none, some ((i : ℚ) + 1), "s1"⟩ : Row)), true⟩

/-- C5 (counterexample): the insufficiency test reads the length of the whole
frame, not the per-type count: both types of df16 have only 8 samples, yet
with 16 total rows the function clusters each of them instead of returning the
insufficient-data marker. -/
theorem C5_counterexample :
    (df16.rows.filter (fun r => r.test_type == "force test")).length < 16 ∧
    (df16.rows.filter (fun r => r.test_type == "angle_test")).length < 16 ∧
    performance_clustering silNone df16 =
      some (.ok (.results [("force test", ⟨2, 0⟩), ("angle_test", ⟨2, 0⟩)])) := by
  with_unfolding_all decide

/-- Bounds of the k-selection loop: the winner stays in
[2, max 2 (min 5 (n - 1))] and its score in [0, 1] for any silhouette oracle
bounded above by 1. -/
theorem selectK_bounds (sil : ℕ → Option ℚ) (n : ℕ)
    (hb : ∀ k s, sil k = some s → s ≤ 1) :
    2 ≤ (selectK sil n).1 ∧ (selectK sil n).1 ≤ max 2 (min 5 (n - 1)) ∧
    0 ≤ (selectK sil n).2 ∧ (selectK sil n).2 ≤ 1 := by
  rw [selectK]
  apply foldl_inv (fun best : ℕ × ℚ =>
    2 ≤ best.1 ∧ best.1 ≤ max 2 (min 5 (n - 1)) ∧ 0 ≤ best.2 ∧ best.2 ≤ 1)
  · exact ⟨le_refl 2, le_max_left _ _, le_refl 0, by norm_num⟩
  · intro b k hk hP
    by_cases hkn : k ≤ n
    · rw [if_pos hkn]
      cases hsil : sil k with
      | none => exact hP
      | some s =>
        simp only []
        by_cases hlt : b.2 < s
        · rw [if_pos hlt]
          have hk2 := List.mem_range'_1.mp hk
          refine ⟨hk2.1, ?_, le_trans hP.2.2.1 (le_of_lt hlt), hb k s hsil⟩
          have hk3 : k < 2 + (min 5 (n - 1) + 1 - 2) := hk2.2
          omega
        · rw [if_neg hlt]
          exact hP
    · rw [if_neg hkn]
      exact hP

/-- The per-type loop aborts with the insufficiency marker exactly when at
least one type is iterated and the WHOLE frame has at most 15 rows. -/
theorem clusterGo_insufficient (sil : SilOracle) (rows : List Row) :
    ∀ (types : List String) (st : Option (List Row × List Feature))
      (acc : List (String × TypeClusters)),
      (clusterGo sil rows types st acc = .ok .insufficient ↔
        (types ≠ [] ∧ rows.length ≤ 15)) := by
  intro types
  induction types with
  | nil =>
    intro st acc
    rw [clusterGo]
    constructor
    · intro h
      injection h with h
      cases h
    · rintro ⟨hne, -⟩
      exact absurd rfl hne
  | cons t ts ih =>
    intro st acc
    rw [clusterGo]
    by_cases hlen : rows.length ≤ 15
    · rw [if_pos hlen]
      simp [hlen]
    · rw [if_neg hlen]
      cases hst : nextState rows t st with
      | none =>
        simp [hlen]
      | some p =>
        cases p with
        | mk ydf fs =>
          simp only []
          by_cases hval : ydf.length < (selectK (sil ydf fs) ydf.length).1
          · rw [if_pos hval]
            simp [hlen]
          · rw [if_neg hval]
            rw [ih]
            simp [hlen]

/-- Every clustering record the per-type loop emits for a recognized type
satisfies the selection bounds over that type's own rows. -/
theorem clusterGo_results (sil : SilOracle) (rows : List Row)
    (hb : ∀ rs fs k s, sil rs fs k = some s → s ≤ 1) :
    ∀ (types : List String) (st : Option (List Row × List Feature))
      (acc : List (String × TypeClusters)),
      (∀ t tc, (t, tc) ∈ acc → ∀ fs, featuresFor t = some fs →
        2 ≤ tc.n_clusters ∧
        tc.n_clusters ≤ max 2 (min 5 ((rows.filter (fun r => r.test_type == t)).length - 1)) ∧
        0 ≤ tc.silhoutte_score ∧ tc.silhoutte_score ≤ 1) →
      ∀ l, clusterGo sil rows types st acc = .ok (.results l) →
        ∀ t tc, (t, tc) ∈ l → ∀ fs, featuresFor t = some fs →
          2 ≤ tc.n_clusters ∧
          tc.n_clusters ≤ max 2 (min 5 ((rows.filter (fun r => r.test_type == t)).length - 1)) ∧
          0 ≤ tc.silhoutte_score ∧ tc.silhoutte_score ≤ 1 := by
  intro types
  induction types with
  | nil =>
    intro st acc hacc l h
    rw [clusterGo] at h
    injection h with h
    injection h with h
    subst h
    intro t tc htc
    exact hacc t tc (List.mem_reverse.mp htc)
  | cons t ts ih =>
    intro st acc hacc l h
    rw [clusterGo] at h
    by_cases hlen : rows.length ≤ 15
    · rw [if_pos hlen] at h
      injection h with h
      cases h
    · rw [if_neg hlen] at h
      cases hst : nextState rows t st with
      | none =>
        rw [hst] at h
        cases h
      | some p =>
        cases p with
        | mk ydf fs0 =>
          rw [hst] at h
          simp only [] at h
          by_cases hval : ydf.length < (selectK (sil ydf fs0) ydf.length).1
          · rw [if_pos hval] at h
            cases h
          · rw [if_neg hval] at h
            refine ih (some (ydf, fs0)) _ ?_ l h
            intro t2 tc2 hmem2 fs2 hfs2
            rcases List.mem_cons.mp hmem2 with heq | hmem2
            · have ht2 : t2 = t := congrArg Prod.fst heq
              subst ht2
              have htc2 : tc2 =
                  ⟨(selectK (sil ydf fs0) ydf.length).1,
                   (selectK (sil ydf fs0) ydf.length).2⟩ := congrArg Prod.snd heq
              subst htc2
              rw [nextState, hfs2] at hst
              injection hst with hst
              have hy : ydf = rows.filter (fun r => r.test_type == t2) :=
                (congrArg Prod.fst hst).symm
              rw [← hy]
              exact selectK_bounds (sil ydf fs0) ydf.length
                (fun k s hsome => hb ydf fs0 k s hsome)
            · exact hacc t2 tc2 hmem2 fs2 hfs2

/-- uniqList is empty only on the empty list. -/
theorem uniqList_eq_nil {l : List String} : uniqList l = [] ↔ l = [] := by
  cases l with
  | nil => simp [uniqList, uniqAux]
  | cons x xs =>
    rw [uniqList, uniqAux]
    simp

/-- C5 (amended): the insufficient-data marker is returned exactly when the
whole frame is non-empty with at most 15 rows in total — the per-type count
plays no role, so a type with fewer than 16 samples is still clustered
whenever the frame total exceeds 15; when a recognized type is clustered, its
reported n_clusters lies in [2, max 2 (min 5 (n - 1))] for the n of that type
(hence in [1, min 5 (n - 1)] whenever n is at least 16) and its reported
score lies in [0, 1], a subset of [-1, 1], for any silhouette oracle bounded
by 1. -/
theorem C5_amended (sil : SilOracle) (df : DataFrame) (hs : df.hasSessionId = true)
    (hb : ∀ rs fs k s, sil rs fs k = some s → s ≤ 1) :
    (performance_clustering sil df = some (.ok .insufficient) ↔
      (df.rows ≠ [] ∧ df.rows.length ≤ 15)) ∧
    (∀ l, performance_clustering sil df = some (.ok (.results l)) →
      ∀ t tc, (t, tc) ∈ l → ∀ fs, featuresFor t = some fs →
        2 ≤ tc.n_clusters ∧
        tc.n_clusters ≤ max 2 (min 5 ((df.rows.filter (fun r => r.test_type == t)).length - 1)) ∧
        0 ≤ tc.silhoutte_score ∧ tc.silhoutte_score ≤ 1) := by
  rw [performance_clustering, if_pos hs]
  constructor
  · rw [Option.some_inj]
    rw [clusterGo_insufficient]
    constructor
    · rintro ⟨hne, hlen⟩
      refine ⟨?_, hlen⟩
      intro hnil
      apply hne
      rw [hnil]
      simp [uniqList, uniqAux]
    · rintro ⟨hne, hlen⟩
      refine ⟨?_, hlen⟩
      intro hnil
      apply hne
      have := uniqList_eq_nil.mp hnil
      exact List.map_eq_nil_iff.mp this
  · intro l h t tc hmem fs hfs
    rw [Option.some_inj] at h
    exact clusterGo_results sil df.rows hb _ none []
      (by intro t2 tc2 hmem2; cases hmem2) l h t tc hmem fs hfs

/-- C5 witness: the amended theorem at a 16-row force-test frame with the
always-single-cluster oracle: the marker is not returned, and the emitted
record for the force type satisfies the bounds. -/
theorem C5_amended_witness :
    performance_clustering silNone
      ⟨List.replicate 16 (⟨0, "force test", some 5, none, "s1"⟩ : Row), true⟩ ≠
      some (.ok .insufficient) ∧
    (2 ≤ (⟨2, 0⟩ : TypeClusters).n_clusters ∧
     (⟨2, 0⟩ : TypeClusters).n_clusters ≤ max 2 (min 5
       (((⟨List.replicate 16 (⟨0, "force test", some 5, none, "s1"⟩ : Row),
          true⟩ : DataFrame).rows.filter (fun r => r.test_type == "force test")).length - 1)) ∧
     0 ≤ (⟨2, 0⟩ : TypeClusters).silhoutte_score ∧
     (⟨2, 0⟩ : TypeClusters).silhoutte_score ≤ 1) := by
  have hb : ∀ rs fs k s, silNone rs fs k = some s → s ≤ 1 := by
    intro rs fs k s hsome
    simp [silNone] at hsome
  have h := C5_amended silNone
    ⟨List.replicate 16 (⟨0, "force test", some 5, none, "s1"⟩ : Row), true⟩ rfl hb
  constructor
  · intro he
    have h2 := (h.1.mp he).2
    simp at h2
  · exact h.2 [("force test", ⟨2, 0⟩)] (by with_unfolding_all decide)
      "force test" ⟨2, 0⟩ (by with_unfolding_all decide) [Feature.force]
      (by with_unfolding_all decide)

/-- The collection loop counts errors cumulatively over every consumed pass:
the final error count is the number of raised polls in the consumed prefix,
it never exceeds the threshold, and a too-many-errors exit happens exactly at
the threshold. -/
theorem collectLoop_char (duration interval : ℚ) :
    ∀ (evs : List Event) (st : CollectState),
      st.error_count ≤ max_errors →
      (collectLoop duration interval evs st).1.error_count ≤ max_errors ∧
      (∃ k, (collectLoop duration interval evs st).1.steps = st.steps + k ∧
        (collectLoop duration interval evs st).1.error_count =
          st.error_count + countErrors (evs.take k)) ∧
      ((collectLoop duration interval evs st).2 = .tooManyErrors →
        (collectLoop duration interval evs st).1.error_count = max_errors) := by
  intro evs
  induction evs with
  | nil =>
    intro st hst
    rw [collectLoop]
    refine ⟨hst, ⟨0, rfl, by simp [countErrors]⟩, ?_⟩
    intro hr
    cases hr
  | cons e rest ih =>
    intro st hst
    rw [collectLoop]
    by_cases hrun : e.running = false
    · rw [if_pos hrun]
      refine ⟨hst, ⟨0, rfl, by simp [countErrors]⟩, ?_⟩
      intro hr
      cases hr
    · rw [if_neg hrun]
      by_cases htime : ¬ ((st.steps : ℚ) * interval < duration)
      · rw [if_pos htime]
        refine ⟨hst, ⟨0, rfl, by simp [countErrors]⟩, ?_⟩
        intro hr
        cases hr
      · rw [if_neg htime]
        by_cases herr : ¬ (st.error_count < max_errors)
        · rw [if_pos herr]
          refine ⟨hst, ⟨0, rfl, by simp [countErrors]⟩, ?_⟩
          intro _
          show st.error_count = max_errors
          omega
        · rw [if_neg herr]
          cases hpoll : e.poll with
          | ok =>
            have h2 := ih ⟨st.data_count + 1, st.error_count, st.steps + 1⟩ hst
            obtain ⟨h21, ⟨k, hk, he⟩, h23⟩ := h2
            refine ⟨h21, ⟨k + 1, ?_, ?_⟩, h23⟩
            · rw [hk]
              show st.steps + 1 + k = st.steps + (k + 1)
              omega
            · rw [he, List.take_succ_cons, countErrors, hpoll]
              show st.error_count + countErrors (rest.take k) = _
              simp
          | noData =>
            have h2 := ih ⟨st.data_count, st.error_count, st.steps + 1⟩ hst
            obtain ⟨h21, ⟨k, hk, he⟩, h23⟩ := h2
            refine ⟨h21, ⟨k + 1, ?_, ?_⟩, h23⟩
            · rw [hk]
              show st.steps + 1 + k = st.steps + (k + 1)
              omega
            · rw [he, List.take_succ_cons, countErrors, hpoll]
              show st.error_count + countErrors (rest.take k) = _
              simp
          | failed =>
            have hstlt : st.error_count < max_errors := by omega
            have h2 := ih ⟨st.data_count, st.error_count + 1, st.steps + 1⟩
              (by show st.error_count + 1 ≤ max_errors; omega)
            obtain ⟨h21, ⟨k, hk, he⟩, h23⟩ := h2
            refine ⟨h21, ⟨k + 1, ?_, ?_⟩, h23⟩
            · rw [hk]
              show st.steps + 1 + k = st.steps + (k + 1)
              omega
            · rw [he, List.take_succ_cons, countErrors, hpoll]
              show st.error_count + 1 + countErrors (rest.take k) = _
              simp
              omega

/-- C9 (counterexample): a trace of ten raised polls each separated by a
successful poll — no two consecutive errors — still drives the loop into the
too-many-errors exit after the tenth error, because the counter is never
reset on success. -/
def c9trace : List Event :=
  (List.replicate 10 [(⟨true, .failed⟩ : Event), ⟨true, .ok⟩]).flatten

theorem C9_counterexample :
    maxConsecErrors c9trace = 1 ∧
    start_data_collection 1000 1 c9trace =
      (⟨9, 10, 19⟩, .tooManyErrors) := by
  with_unfolding_all decide

/-- C9 (amended): the collection loop always returns cleanly (the embedding
is a total function: stop flag, timeout, error threshold, or the trace running
out), and its error counter is CUMULATIVE over the consumed passes — a
successful poll never resets it, so errors separated by successes do count
toward the threshold of 10; the counter never exceeds 10 and a
too-many-errors exit happens exactly at 10. -/
theorem C9_amended (duration interval : ℚ) (evs : List Event) :
    (start_data_collection duration interval evs).1.error_count =
      countErrors (evs.take (start_data_collection duration interval evs).1.steps) ∧
    (start_data_collection duration interval evs).1.error_count ≤ max_errors ∧
    ((start_data_collection duration interval evs).2 = .tooManyErrors →
      (start_data_collection duration interval evs).1.error_count = max_errors) := by
  have h := collectLoop_char duration interval evs ⟨0, 0, 0⟩ (Nat.zero_le _)
  obtain ⟨h1, ⟨k, hk, he⟩, h3⟩ := h
  rw [start_data_collection]
  refine ⟨?_, h1, h3⟩
  have hk2 : (collectLoop duration interval evs ⟨0, 0, 0⟩).1.steps = k := by
    rw [hk]
    exact Nat.zero_add k
  rw [he, hk2]
  exact Nat.zero_add _

/-- C9 witness: the amended theorem applied to the alternating trace: the
too-many-errors exit is reached with the counter exactly at the threshold. -/
theorem C9_amended_witness :
    (start_data_collection 1000 1 c9trace).1.error_count = max_errors :=
  (C9_amended 1000 1 c9trace).2.2 (by with_unfolding_all decide)

/-- The value the force branch of the improvement loop leaves in the force
field: the first-minus-last force summary when both sessions report the force
type, the previous value otherwise. -/
def forceWrite (x y : Option SessionValues) (a : Option ℚ) : Option ℚ :=
  match x, y with
  | some fv, some lv => osub fv.force_value lv.force_value
  | _, _ => a

/-- One improvement step under the observation that the last-session values
dict never carries the literal keys angle value or force angle value (its keys
are test_type names): the angle and combined branches then never fire, only
the force branch can write, and it writes the first-minus-last force summary
exactly when the last session also reports the force type. -/
theorem impStep_char (firstVals lastVals : List (String × SessionValues))
    (hA : lastVals.lookup "angle value" = none)
    (hFA : lastVals.lookup "force angle value" = none)
    (imp imp3 : ImpRec) (t : String)
    (h : impStep firstVals lastVals imp t = .ok imp3) :
    imp3.angle = imp.angle ∧
    (t ≠ "force test" → imp3 = imp) ∧
    (t = "force test" →
      imp3.force = forceWrite (firstVals.lookup "force test")
        (lastVals.lookup "force test") imp.force) := by
  by_cases ht2 : t = "force test"
  · subst ht2
    rw [impStep, if_neg (by decide), if_pos rfl] at h
    cases hlast : lastVals.lookup "force test" with
    | none =>
      rw [hlast] at h
      simp at h
      subst h
      refine ⟨rfl, fun hne => absurd rfl hne, fun _ => ?_⟩
      cases hf : firstVals.lookup "force test" with
      | none => rfl
      | some fv => rfl
    | some lv =>
      rw [hlast] at h
      rw [if_pos Option.isSome_some] at h
      cases hf : firstVals.lookup "force test" with
      | none =>
        rw [hf] at h
        simp only [] at h
        cases h
      | some fv =>
        rw [hf] at h
        simp only [] at h
        injection h with h
        subst h
        exact ⟨rfl, fun hne => absurd rfl hne, fun _ => rfl⟩
  · by_cases ht1 : t = "angle test"
    · subst ht1
      rw [impStep, if_pos rfl, hA] at h
      simp at h
      subst h
      exact ⟨rfl, fun _ => rfl, fun hteq => absurd hteq (by decide)⟩
    · by_cases ht3 : t = "force angle test"
      · subst ht3
        rw [impStep, if_neg (by decide), if_neg (by decide), if_pos rfl, hFA] at h
        simp at h
        subst h
        exact ⟨rfl, fun _ => rfl, fun hteq => absurd hteq (by decide)⟩
      · rw [impStep, if_neg ht1, if_neg ht2, if_neg ht3] at h
        injection h with h
        subst h
        exact ⟨rfl, fun _ => rfl, fun hteq => absurd hteq ht2⟩

/-- Writing the first-minus-last force summary over an already-written record
changes nothing: the write is idempotent in the loop. -/
theorem match_force_idem (x y : Option SessionValues) (a b : Option ℚ)
    (h : a = forceWrite x y b) :
    forceWrite x y a = forceWrite x y b := by
  cases x with
  | some fv =>
    cases y with
    | some lv => rfl
    | none => exact h
  | none =>
    cases y with
    | some lv => exact h
    | none => exact h

/-- The improvement loop under the same observation: the shared record keeps
angle untouched, and its force field ends as the first-minus-last force
summary exactly when the force type is among the iterated keys and both
lookups succeed. -/
theorem impFold_char (firstVals lastVals : List (String × SessionValues))
    (hA : lastVals.lookup "angle value" = none)
    (hFA : lastVals.lookup "force angle value" = none) :
    ∀ (ks : List String) (imp imp2 : ImpRec),
      impFold firstVals lastVals ks imp = .ok imp2 →
      imp2.angle = imp.angle ∧
      imp2.force = (if "force test" ∈ ks then
          forceWrite (firstVals.lookup "force test") (lastVals.lookup "force test") imp.force
        else imp.force) := by
  intro ks
  induction ks with
  | nil =>
    intro imp imp2 h
    rw [impFold] at h
    injection h with h
    subst h
    simp
  | cons t ts ih =>
    intro imp imp2 h
    rw [impFold] at h
    cases hstep : impStep firstVals lastVals imp t with
    | error e =>
      rw [hstep] at h
      cases h
    | ok imp3 =>
      rw [hstep] at h
      simp only [] at h
      obtain ⟨ha3, hne3, heq3⟩ := impStep_char firstVals lastVals hA hFA imp imp3 t hstep
      obtain ⟨ha2, hf2⟩ := ih imp3 imp2 h
      by_cases ht : t = "force test"
      · subst ht
        have h3 := heq3 rfl
        constructor
        · rw [ha2]
          exact ha3
        · rw [if_pos (List.mem_cons_self _ _), hf2]
          by_cases hmem2 : "force test" ∈ ts
          · rw [if_pos hmem2]
            exact match_force_idem _ _ _ _ h3
          · rw [if_neg hmem2]
            exact h3
      · have himp3 : imp3 = imp := hne3 ht
        subst himp3
        have hiff : ("force test" ∈ t :: ts) ↔ "force test" ∈ ts := by
          constructor
          · intro hm
            rcases List.mem_cons.mp hm with heq | hm
            · exact absurd heq.symm ht
            · exact hm
          · exact List.mem_cons_of_mem _
        refine ⟨ha2, ?_⟩
        by_cases hmem2 : "force test" ∈ ts
        · rw [if_pos (hiff.mpr hmem2), hf2, if_pos hmem2]
        · rw [if_neg (fun hm => hmem2 (hiff.mp hm)), hf2, if_neg hmem2]

/-- The two-session history that refutes the common-subset claim: the first
session holds only angle-test samples, the last only force-test samples. -/
def histC7 : DataFrame := load_user_historical_data
  [⟨0, "angle test", none, some 10, "s1"⟩, ⟨200000, "force test", some 50, none, "s2"⟩]

/-- The payload generate_comparison_analysis returns on histC7. -/
def c7res : ComparisonResult :=
  { user_id := "u"
    analysis_period_days := 30
    total_sessions := 2
    session_statistics :=
      [⟨"s1", 0, 0, [("angle test", ⟨some 10, none⟩)]⟩,
       ⟨"s2", 2, 0, [("force test", ⟨none, some 50⟩)]⟩]
    improvements := [("angle test", ⟨none, none⟩)] }

/-- C7 (counterexample): with two sessions, the improvements map carries the
key angle test although the last session reports only the force type — the
keys are not a subset of the test types common to first and last session. -/
theorem C7_counterexample :
    generate_comparison_analysis "u" 30 histC7 = .ok (.results c7res) ∧
    c7res.improvements.map Prod.fst = ["angle test"] ∧
    (c7res.session_statistics.getLastD default).values.lookup "angle test" = none := by
  with_unfolding_all decide

/-- C7 (amended): with exactly 1 distinct session the function still returns
the insufficient-history marker; with 2 or more sessions, the keys of the
improvements map are exactly the test_types of the FIRST session (sorted by
date ascending), regardless of what the last session reports; every key maps
to one shared record; and, whenever no test_type is literally named angle
value or force angle value (the misspelled keys the angle and combined
branches test for), that record has no angle entry and its force entry is the
first-session max force minus the last-session max force exactly when both
the first and the last session report the force test. -/
theorem C7_amended (user_id : String) (days : ℕ) (df : DataFrame) :
    ((df.rows ≠ [] ∧ (uniqList (df.rows.map (fun r => r.session_id))).length < 2) →
      generate_comparison_analysis user_id days df = .ok .needTwoSessions) ∧
    (∀ r, generate_comparison_analysis user_id days df = .ok (.results r) →
      r.improvements.map Prod.fst =
        (r.session_statistics.headD default).values.map Prod.fst ∧
      (∀ p, p ∈ r.improvements → ∀ q, q ∈ r.improvements → p.2 = q.2) ∧
      (((r.session_statistics.getLastD default).values.lookup "angle value" = none ∧
        (r.session_statistics.getLastD default).values.lookup "force angle value" = none) →
        ∀ p, p ∈ r.improvements →
          p.2.angle = none ∧
          p.2.force = forceWrite
            ((r.session_statistics.headD default).values.lookup "force test")
            ((r.session_statistics.getLastD default).values.lookup "force test") none)) := by
  constructor
  · rintro ⟨hne, hlt⟩
    rw [generate_comparison_analysis, if_neg hne, if_pos hlt]
  · intro r h
    rw [generate_comparison_analysis] at h
    by_cases hne : df.rows = []
    · rw [if_pos hne] at h
      injection h with h
      cases h
    · rw [if_neg hne] at h
      by_cases hlt : (uniqList (df.rows.map (fun r => r.session_id))).length < 2
      · rw [if_pos hlt] at h
        injection h with h
        cases h
      · rw [if_neg hlt] at h
        cases hsorted : List.insertionSort (fun a b => a.date ≤ b.date)
            ((uniqList (df.rows.map (fun r => r.session_id))).map
              (mkSessionStat df.rows df.rows)) with
        | nil =>
          rw [hsorted] at h
          injection h with h
          cases h
        | cons first rest =>
          rw [hsorted] at h
          simp only [] at h
          cases hfold : impFold first.values (rest.getLastD first).values
              (first.values.map Prod.fst) ⟨none, none⟩ with
          | error e =>
            rw [hfold] at h
            cases h
          | ok finalImp =>
            rw [hfold] at h
            simp only [] at h
            injection h with h
            injection h with h
            subst h
            refine ⟨?_, ?_, ?_⟩
            · rw [List.headD_cons]
              show ((first.values.map Prod.fst).map (fun t => (t, finalImp))).map Prod.fst =
                first.values.map Prod.fst
              rw [List.map_map]
              exact List.map_id _
            · intro p hp q hq
              obtain ⟨tp, -, hpe⟩ := List.mem_map.mp hp
              obtain ⟨tq, -, hqe⟩ := List.mem_map.mp hq
              rw [← hpe, ← hqe]
            · rintro ⟨hA, hFA⟩ p hp
              rw [List.getLastD_cons] at hA hFA
              obtain ⟨tp, -, hpe⟩ := List.mem_map.mp hp
              obtain ⟨hAn, hFo⟩ := impFold_char first.values (rest.getLastD first).values
                hA hFA (first.values.map Prod.fst) ⟨none, none⟩ finalImp hfold
              rw [← hpe]
              constructor
              · exact hAn
              · show finalImp.force = _
                rw [List.headD_cons, List.getLastD_cons, hFo]
                by_cases hmem : "force test" ∈ first.values.map Prod.fst
                · rw [if_pos hmem]
                · rw [if_neg hmem]
                  have hnone : first.values.lookup "force test" = none := by
                    cases hcase : first.values.lookup "force test" with
                    | none => rfl
                    | some v =>
                      exact absurd ((lookup_isSome_iff first.values "force test").mp
                        (by rw [hcase]; rfl)) hmem
                  rw [hnone]
                  cases hl : (rest.getLastD first).values.lookup "force test" with
                  | none => rfl
                  | some lv => rfl

/-- A two-session history both of whose sessions report only the force test:
max force 50 for the earlier, 40 for the later. -/
def histW : DataFrame := load_user_historical_data
  [⟨0, "force test", some 50, none, "s1"⟩, ⟨200000, "force test", some 40, none, "s2"⟩]

/-- The payload generate_comparison_analysis returns on histW. -/
def c7wRes : ComparisonResult :=
  { user_id := "u"
    analysis_period_days := 30
    total_sessions := 2
    session_statistics :=
      [⟨"s1", 0, 0, [("force test", ⟨none, some 50⟩)]⟩,
       ⟨"s2", 2, 0, [("force test", ⟨none, some 40⟩)]⟩]
    improvements := [("force test", ⟨none, some 10⟩)] }

/-- C7 witness: the amended theorem applied to a one-session history (the
marker) and to the concrete two-session force-test history histW (the keys
equation). -/
theorem C7_amended_witness :
    generate_comparison_analysis "u" 30
      (load_user_historical_data [⟨100000, "angle test", none, some 10, "s1"⟩]) =
      .ok .needTwoSessions ∧
    c7wRes.improvements.map Prod.fst =
      (c7wRes.session_statistics.headD default).values.map Prod.fst :=
  ⟨(C7_amended "u" 30
      (load_user_historical_data [⟨100000, "angle test", none, some 10, "s1"⟩])).1
      (by with_unfolding_all decide),
   ((C7_amended "u" 30 histW).2 c7wRes (by with_unfolding_all decide)).1⟩

end Rehab
